import Mathlib

/-!
Shallow embedding of the metitor plugin system:
registry and module loader (src/lib/plugin-system/store), the HTTP handlers for
/api/plugins (GET, POST, DELETE), the client-side slot resolver
(src/components/DynamicSlot.tsx, loadSlotComponents / loadPluginComponent) and the
client-local entity-override storage written by PluginCustomizer.
-/

namespace Metitor

/-- A renderable slot component, modelled as an opaque label. -/
abbrev Component := String

/-- Opaque per-installation settings blob (a JSON object modelled as key-value pairs). -/
abbrev Settings := List (String × String)

/-- One slot contribution declared by a plugin manifest. -/
structure SlotDecl where
  name : String
  description : String
deriving DecidableEq

/-- Static plugin manifest (src/lib/plugin-system/types.ts, PluginManifest).
The optional hooks and routes fields are omitted: nothing in the resolution paths
reads them. -/
structure PluginManifest where
  id : String
  name : String
  description : String
  version : String
  author : Option String := none
  icon : Option String := none
  entityTypes : List String
  slots : List SlotDecl
deriving DecidableEq

/-- Association-list lookup, modelling JS Map.get (keys are unique in a JS Map). -/
def assocGet {α : Type} (l : List (String × α)) (k : String) : Option α :=
  match l with
  | [] => none
  | (k2, v) :: rest => if k2 == k then some v else assocGet rest k

/-- JS Map.set: replace the value at an existing key in place, else append at the end
(a JS Map keeps the original insertion position on overwrite). -/
def assocSet {α : Type} (l : List (String × α)) (k : String) (v : α) : List (String × α) :=
  match l with
  | [] => [(k, v)]
  | (k2, v2) :: rest => if k2 == k then (k, v) :: rest else (k2, v2) :: assocSet rest k v

/-- Executable plugin module (types.ts PluginModule): slot name to component, plus the
outcome of the optional initialize() lifecycle hook, modelled by initHook:
none = no hook, some true = the hook resolves, some false = the hook throws. -/
structure PluginModule where
  components : List (String × Component)
  initHook : Option Bool := none
deriving DecidableEq

/-- State of the plugin-system store: the loadedModules map and the server-side
componentCache map of maps. -/
structure LoaderState where
  loadedModules : List (String × PluginModule)
  componentCache : List (String × List (String × Component))
deriving DecidableEq

/-- loadPluginModule (plugin-system store): return the cached module if present; otherwise
resolve the id through the closed switch (modelled by resolveImpl, which is none for ids
outside the switch and for ids whose dynamic import throws), run initialize() if present
(a throw is caught and yields null with no state change, because both cache writes come
after the await of initialize), then record the module and its slot components. -/
def loadPluginModule (resolveImpl : String → Option PluginModule)
    (st : LoaderState) (pid : String) : Option PluginModule × LoaderState :=
  match assocGet st.loadedModules pid with
  | some m => (some m, st)
  | none =>
    match resolveImpl pid with
    | none => (none, st)
    | some m =>
      match m.initHook with
      | some false => (none, st)
      | _ =>
        (some m,
         ⟨assocSet st.loadedModules pid m,
          assocSet st.componentCache pid m.components⟩)

/-- isPluginLoaded: membership in the loadedModules map. -/
def isPluginLoaded (st : LoaderState) (pid : String) : Bool :=
  (assocGet st.loadedModules pid).isSome

/-- registerAvailablePlugin: a no-op (with a console warning) when the id is already
registered, otherwise the manifest is appended (JS Map insertion order). -/
def registerAvailablePlugin (reg : List PluginManifest) (m : PluginManifest) :
    List PluginManifest :=
  if reg.any (fun p => p.id == m.id) then reg else reg ++ [m]

/-- The registry produced by a sequence of registerAvailablePlugin calls starting from
an empty registry. -/
def registerSequence (ms : List PluginManifest) : List PluginManifest :=
  ms.foldl registerAvailablePlugin []

/-- getAvailablePlugins: all registered manifests, insertion order. -/
def getAvailablePlugins (reg : List PluginManifest) : List PluginManifest := reg

/-- getPluginManifest: lookup by id. -/
def getPluginManifest (reg : List PluginManifest) (pid : String) : Option PluginManifest :=
  reg.find? (fun p => p.id == pid)

/-- Persistent per-user installation row (prisma pluginInstallation). The database id and
the timestamps are omitted: nothing in the modelled paths reads them. -/
structure PluginInstallation where
  userId : String
  pluginId : String
  enabled : Bool
  settings : Settings
deriving DecidableEq

/-- setEnabledTrue: the row update performed by the upsert's update clause
(enabled := true, every other field untouched). -/
def setEnabledTrue (i : PluginInstallation) : PluginInstallation :=
  ⟨i.userId, i.pluginId, true, i.settings⟩

/-- Server-side entity plugin config row (prisma entityPluginConfig), as selected by the
deleteMany where clause of the DELETE handler: it carries userId and pluginId columns. -/
structure EntityPluginConfig where
  userId : String
  entityType : String
  entityId : String
  pluginId : String
deriving DecidableEq

/-- The relational store as seen by the /api/plugins handlers. -/
structure Db where
  installations : List PluginInstallation
  entityConfigs : List EntityPluginConfig
deriving DecidableEq

/-- HTTP outcome of a plugin API handler: 401, 400, 404, 500 or a success payload. -/
inductive ApiResult (α : Type) where
  | unauthorized
  | badRequest
  | notFound
  | serverError
  | ok (val : α)
deriving DecidableEq

/-- One entry of the GET /api/plugins response: a manifest decorated with the viewer's
installation status. -/
structure PluginWithStatus where
  manifest : PluginManifest
  installed : Bool
  enabled : Bool
  settings : Settings
deriving DecidableEq

/-- The installations the GET handler fetches: the viewer's rows, or the empty list for an
anonymous session. -/
def userRows (db : Db) (session : Option String) : List PluginInstallation :=
  match session with
  | some uid => db.installations.filter (fun i => i.userId == uid)
  | none => []

/-- new Map(installations.map(i prodto pair of pluginId and i)): with duplicate keys the
later entry wins, so the lookup scans from the end. -/
def installationLookup (rows : List PluginInstallation) (pid : String) :
    Option PluginInstallation :=
  rows.reverse.find? (fun i => i.pluginId == pid)

/-- One response entry: installed = map.has(id), enabled and settings default to false and
the empty object when no installation exists. -/
def pluginStatusFor (rows : List PluginInstallation) (m : PluginManifest) :
    PluginWithStatus :=
  match installationLookup rows m.id with
  | some i => ⟨m, true, i.enabled, i.settings⟩
  | none => ⟨m, false, false, []⟩

/-- GET /api/plugins: available manifests in registration order, decorated with the
viewer's installation status. -/
def GET_plugins (reg : List PluginManifest) (db : Db) (session : Option String) :
    List PluginWithStatus :=
  reg.map (pluginStatusFor (userRows db session))

/-- prisma pluginInstallation.upsert on the unique (userId, pluginId) key: the update
clause sets enabled := true only; the create clause adds a fresh enabled row with the
default (empty) settings. -/
def upsertInstallation (db : Db) (uid pid : String) : PluginInstallation × Db :=
  match db.installations.find? (fun i => i.userId == uid && i.pluginId == pid) with
  | some i =>
    (setEnabledTrue i,
     ⟨db.installations.map (fun j =>
        if j.userId == uid && j.pluginId == pid then setEnabledTrue j else j),
      db.entityConfigs⟩)
  | none =>
    (⟨uid, pid, true, []⟩,
     ⟨db.installations ++ [⟨uid, pid, true, []⟩], db.entityConfigs⟩)

/-- POST /api/plugins (install). The request-body pluginId is an Option String whose none
models a falsy pluginId (absent, null or the empty string), mirroring the
if (not pluginId) guard; the registry lookup precedes and guards the upsert. -/
def POST_plugins (reg : List PluginManifest) (db : Db) (session : Option String)
    (pluginId : Option String) : ApiResult PluginInstallation × Db :=
  match session with
  | none => (ApiResult.unauthorized, db)
  | some uid =>
    match pluginId with
    | none => (ApiResult.badRequest, db)
    | some pid =>
      match getPluginManifest reg pid with
      | none => (ApiResult.notFound, db)
      | some _ =>
        (ApiResult.ok (upsertInstallation db uid pid).1, (upsertInstallation db uid pid).2)

/-- DELETE /api/plugins (uninstall). prisma .delete throws when no row matches the unique
key; the catch turns that into a 500 and the config cleanup never runs. On success the
installation row is deleted and then every entityPluginConfig row for
(userId, pluginId). -/
def DELETE_plugins (db : Db) (session : Option String) (pluginId : Option String) :
    ApiResult Unit × Db :=
  match session with
  | none => (ApiResult.unauthorized, db)
  | some uid =>
    match pluginId with
    | none => (ApiResult.badRequest, db)
    | some pid =>
      if db.installations.any (fun i => i.userId == uid && i.pluginId == pid) then
        (ApiResult.ok (),
         ⟨db.installations.filter (fun i => !(i.userId == uid && i.pluginId == pid)),
          db.entityConfigs.filter (fun c => !(c.userId == uid && c.pluginId == pid))⟩)
      else (ApiResult.serverError, db)

/-- A stored localStorage value under an entity-plugins key: either JSON that fails to
parse (malformed) or a parsed array of plugin ids. -/
inductive StoredOverride where
  | malformed
  | wellFormed (pluginIds : List String)
deriving DecidableEq

/-- Client-local storage of entity overrides, keyed by (entityType, entityId) — the
localStorage keys of the form entity-plugins:entityType:entityId. -/
abbrev LocalStore := List ((String × String) × StoredOverride)

/-- localStorage.getItem on the entity-plugins key of (entityType, entityId). -/
def localGet (ls : LocalStore) (et eid : String) : Option StoredOverride :=
  (ls.find? (fun e => e.1.1 == et && e.1.2 == eid)).map (fun e => e.2)

/-- The client-side component cache of DynamicSlot: a map from pluginId to a map from
slot name to component. -/
abbrev CCache := List (String × List (String × Component))

/-- componentCache.get(pluginId) followed by .get(slotName). -/
def ccGet (cache : CCache) (pid slot : String) : Option Component :=
  match assocGet cache pid with
  | none => none
  | some inner => assocGet inner slot

/-- The cache write of loadPluginComponent: create the inner map when the pluginId is
unseen, then set the slot entry. -/
def ccInsert (cache : CCache) (pid slot : String) (c : Component) : CCache :=
  match assocGet cache pid with
  | none => cache ++ [(pid, [(slot, c)])]
  | some inner => assocSet cache pid (assocSet inner slot c)

/-- The component the module table yields for (pluginId, slotName): resolve the module,
then read components[slotName]. -/
def componentOf (impls : String → Option PluginModule) (pid slot : String) :
    Option Component :=
  match impls pid with
  | none => none
  | some m => assocGet m.components slot

/-- loadPluginComponent (DynamicSlot): the cached component if present; otherwise resolve
the module through the closed switch (impls, none for unknown ids and failing imports),
read components[slotName], cache it when present, and return it (null otherwise). -/
def loadPluginComponent (impls : String → Option PluginModule) (cache : CCache)
    (pid slot : String) : Option Component × CCache :=
  match ccGet cache pid slot with
  | some c => (some c, cache)
  | none =>
    match impls pid with
    | none => (none, cache)
    | some m =>
      match assocGet m.components slot with
      | some c => (some c, ccInsert cache pid slot c)
      | none => (none, cache)

/-- The for-loop of loadSlotComponents: load each surviving plugin in order, keep the
components that load, skip the ones that yield null. -/
def loadComponentsLoop (impls : String → Option PluginModule) (cache : CCache)
    (ids : List String) (slot : String) : List Component × CCache :=
  match ids with
  | [] => ([], cache)
  | pid :: rest =>
    (match (loadPluginComponent impls cache pid slot).1 with
     | some c =>
       c :: (loadComponentsLoop impls (loadPluginComponent impls cache pid slot).2
              rest slot).1
     | none =>
       (loadComponentsLoop impls (loadPluginComponent impls cache pid slot).2
         rest slot).1,
     (loadComponentsLoop impls (loadPluginComponent impls cache pid slot).2 rest slot).2)

/-- The enabledPlugins filter of loadSlotComponents: installed, enabled, and declaring the
requested slot — applied to the GET /api/plugins response, so in registration order. -/
def slotCandidates (reg : List PluginManifest) (db : Db) (session : Option String)
    (slot : String) : List PluginWithStatus :=
  (GET_plugins reg db session).filter (fun p =>
    p.installed && p.enabled && p.manifest.slots.any (fun s => s.name == slot))

/-- The candidate plugin ids: enabledPlugins.map(p to p.id). -/
def slotCandidateIds (reg : List PluginManifest) (db : Db) (session : Option String)
    (slot : String) : List String :=
  (slotCandidates reg db session slot).map (fun p => p.manifest.id)

/-- activePluginIds after the entity-override step of loadSlotComponents: when entityType,
entityId and a logged-in session are all present and a stored value parses, intersect with
it; a missing or malformed stored value leaves the candidate list unchanged. -/
def activePluginIds (reg : List PluginManifest) (db : Db) (ls : LocalStore)
    (session : Option String) (slot : String) (et eid : Option String) : List String :=
  match et, eid, session with
  | some et1, some eid1, some u =>
    match localGet ls et1 eid1 with
    | some (StoredOverride.wellFormed cfg) =>
      (slotCandidateIds reg db (some u) slot).filter (fun i => cfg.contains i)
    | some StoredOverride.malformed => slotCandidateIds reg db (some u) slot
    | none => slotCandidateIds reg db (some u) slot
  | _, _, _ => slotCandidateIds reg db session slot

/-- loadSlotComponents (DynamicSlot): resolve the slot for the viewer and entity, then
load each surviving plugin's component in order, skipping load failures. -/
def loadSlotComponents (reg : List PluginManifest) (db : Db) (ls : LocalStore)
    (impls : String → Option PluginModule) (cache : CCache) (session : Option String)
    (slot : String) (et eid : Option String) : List Component × CCache :=
  loadComponentsLoop impls cache (activePluginIds reg db ls session slot et eid) slot

/-- Combined server database and the viewer's client-local storage. -/
structure SysState where
  db : Db
  localStore : LocalStore
deriving DecidableEq

/-- The full uninstall flow: the plugins page calls DELETE /api/plugins; no code in the
repository touches the client-local entity-override storage on uninstall. -/
def uninstallSystem (st : SysState) (session : Option String) (pluginId : Option String) :
    ApiResult Unit × SysState :=
  ((DELETE_plugins st.db session pluginId).1,
   ⟨(DELETE_plugins st.db session pluginId).2, st.localStore⟩)

/-- Whether any stored override set in the client-local storage references a plugin id. -/
def overrideReferences (ls : LocalStore) (pid : String) : Bool :=
  ls.any (fun e =>
    match e.2 with
    | StoredOverride.wellFormed ids => ids.contains pid
    | StoredOverride.malformed => false)

/-- Every cached client component agrees with the module table. -/
def CacheConsistent (impls : String → Option PluginModule) (cache : CCache) : Prop :=
  ∀ pid slot c, ccGet cache pid slot = some c → componentOf impls pid slot = some c

/-! Concrete data, mirroring the plugins shipped in the repository, used to evaluate the
model on closed inputs. -/

/-- The company-metrics manifest (src/plugins/company-metrics). -/
def wManA : PluginManifest :=
  ⟨"company-metrics", "Company Metrics", "Funding stats and health score", "1.0.0",
   none, none, ["company"],
   [⟨"CompanyProfile.Header", "Quick stats cards"⟩,
    ⟨"CompanyProfile.Details", "Funding journey chart"⟩]⟩

/-- The timeline manifest (a second plugin declaring the same header slot). -/
def wManT : PluginManifest :=
  ⟨"timeline", "Timeline", "Company timeline", "1.0.0", none, none, ["company"],
   [⟨"CompanyProfile.Header", "Recent activity"⟩]⟩

/-- A duplicate-id manifest, used to exercise registration conflicts. -/
def wManDup : PluginManifest :=
  ⟨"company-metrics", "Company Metrics Copy", "Duplicate registration", "2.0.0",
   none, none, ["company"], []⟩

def wModA : PluginModule :=
  ⟨[("CompanyProfile.Header", "company-metrics.Header"),
    ("CompanyProfile.Details", "company-metrics.Details")], none⟩

def wModT : PluginModule := ⟨[("CompanyProfile.Header", "timeline.Header")], none⟩

/-- A module whose initialize() hook throws. -/
def wFailModule : PluginModule := ⟨[], some false⟩

/-- A concrete closed switch over plugin ids. -/
def wImpls : String → Option PluginModule := fun pid =>
  if pid == "company-metrics" then some wModA
  else if pid == "timeline" then some wModT
  else none

/-- A concrete closed switch containing a module whose initialization fails. -/
def wResolve : String → Option PluginModule := fun pid =>
  if pid == "bad-plugin" then some wFailModule else none

def emptyLoader : LoaderState := ⟨[], []⟩

def wReg : List PluginManifest := [wManA, wManT]

def wMs : List PluginManifest := [wManA, wManDup, wManT]

def wDb : Db :=
  ⟨[⟨"u1", "company-metrics", true, []⟩, ⟨"u1", "timeline", true, []⟩], []⟩

/-- A database where company-metrics is installed but disabled. -/
def w5Db : Db :=
  ⟨[⟨"u1", "company-metrics", false, []⟩, ⟨"u1", "timeline", true, []⟩], []⟩

/-- A database holding an existing disabled installation with stored settings. -/
def w9Db : Db := ⟨[⟨"u1", "company-metrics", false, [("color", "blue")]⟩], []⟩

/-- Client-local storage with a well-formed override set for (company, acme). -/
def wLs : LocalStore :=
  [(("company", "acme"), StoredOverride.wellFormed ["company-metrics"])]

/-- Client-local storage with a malformed stored value for (company, acme). -/
def w10Ls : LocalStore := [(("company", "acme"), StoredOverride.malformed)]

/-- A non-empty client cache built by one cache write. -/
def wCache2 : CCache :=
  ccInsert [] "company-metrics" "CompanyProfile.Header" "company-metrics.Header"

/-- A combined state with an installation, a server-side config row and a client-local
override that all reference company-metrics. -/
def c7Sys : SysState :=
  ⟨⟨[⟨"u1", "company-metrics", true, []⟩],
    [⟨"u1", "company", "acme", "company-metrics"⟩]⟩, wLs⟩

/-! Helper lemmas about the association-list operations. -/

theorem assocGet_assocSet_self {α : Type} (l : List (String × α)) (k : String) (v : α) :
    assocGet (assocSet l k v) k = some v := by
  induction l with
  | nil => simp [assocSet, assocGet]
  | cons hd tl ih =>
    obtain ⟨k2, v2⟩ := hd
    by_cases h : k2 = k
    · simp [assocSet, assocGet, h]
    · have hb : (k2 == k) = false := by simp [h]
      simp [assocSet, assocGet, hb, ih]

theorem assocGet_assocSet_ne {α : Type} (l : List (String × α)) (k k3 : String) (v : α)
    (h : k3 ≠ k) : assocGet (assocSet l k v) k3 = assocGet l k3 := by
  have hb0 : (k == k3) = false := by
    simp only [beq_eq_false_iff_ne, ne_eq]
    intro hh
    exact h hh.symm
  induction l with
  | nil => simp [assocSet, assocGet, hb0]
  | cons hd tl ih =>
    obtain ⟨k2, v2⟩ := hd
    by_cases h2 : k2 = k
    · simp [assocSet, assocGet, h2, hb0]
    · have hb : (k2 == k) = false := by simp [h2]
      simp only [assocSet, hb, if_false]
      by_cases h3 : k2 = k3
      · simp [assocGet, h3]
      · have hb3 : (k2 == k3) = false := by simp [h3]
        simp [assocGet, hb3, ih]

theorem assocGet_append {α : Type} (l1 l2 : List (String × α)) (k : String) :
    assocGet (l1 ++ l2) k =
      match assocGet l1 k with
      | some v => some v
      | none => assocGet l2 k := by
  induction l1 with
  | nil => simp [assocGet]
  | cons hd tl ih =>
    obtain ⟨k2, v2⟩ := hd
    by_cases h : k2 = k
    · simp [assocGet, h]
    · have hb : (k2 == k) = false := by simp [h]
      simp [assocGet, hb, ih]

theorem ccGet_ccInsert (cache : CCache) (pid slot : String) (c : Component)
    (pid2 slot2 : String) :
    ccGet (ccInsert cache pid slot c) pid2 slot2 =
      if pid2 = pid ∧ slot2 = slot then some c else ccGet cache pid2 slot2 := by
  unfold ccInsert
  cases hout : assocGet cache pid with
  | none =>
    unfold ccGet
    rw [assocGet_append]
    by_cases hp : pid2 = pid
    · subst hp
      rw [hout]
      by_cases hs : slot2 = slot
      · simp [hs, assocGet]
      · have hb : (slot == slot2) = false := by
          simp only [beq_eq_false_iff_ne, ne_eq]
          intro hh
          exact hs hh.symm
        simp [hs, assocGet, hb, hout]
    · have hb : (pid == pid2) = false := by
        simp only [beq_eq_false_iff_ne, ne_eq]
        intro hh
        exact hp hh.symm
      cases h2 : assocGet cache pid2 with
      | none => simp [assocGet, hb, hp]
      | some inner => simp [assocGet, hb, hp, h2]
  | some inner =>
    unfold ccGet
    by_cases hp : pid2 = pid
    · subst hp
      rw [assocGet_assocSet_self, hout]
      by_cases hs : slot2 = slot
      · simp [hs, assocGet_assocSet_self]
      · simp [hs, assocGet_assocSet_ne inner slot slot2 _ hs]
    · rw [assocGet_assocSet_ne cache pid pid2 _ hp]
      simp [hp]

theorem cacheConsistent_nil (impls : String → Option PluginModule) :
    CacheConsistent impls [] := by
  intro pid slot c h
  simp [ccGet, assocGet] at h

theorem cacheConsistent_ccInsert {impls : String → Option PluginModule} {cache : CCache}
    {pid slot : String} {c : Component} (h : CacheConsistent impls cache)
    (hc : componentOf impls pid slot = some c) :
    CacheConsistent impls (ccInsert cache pid slot c) := by
  intro pid2 slot2 c2 h2
  rw [ccGet_ccInsert] at h2
  by_cases he : pid2 = pid ∧ slot2 = slot
  · rw [if_pos he] at h2
    obtain ⟨he1, he2⟩ := he
    subst he1; subst he2
    rw [hc, h2]
  · rw [if_neg he] at h2
    exact h pid2 slot2 c2 h2

theorem loadPluginComponent_spec (impls : String → Option PluginModule) (cache : CCache)
    (pid slot : String) (h : CacheConsistent impls cache) :
    (loadPluginComponent impls cache pid slot).1 = componentOf impls pid slot
    ∧ CacheConsistent impls (loadPluginComponent impls cache pid slot).2 := by
  cases hg : ccGet cache pid slot with
  | some c =>
    have e : loadPluginComponent impls cache pid slot = (some c, cache) := by
      unfold loadPluginComponent
      rw [hg]
    rw [e]
    exact ⟨(h pid slot c hg).symm, h⟩
  | none =>
    cases hi : impls pid with
    | none =>
      have e : loadPluginComponent impls cache pid slot = (none, cache) := by
        unfold loadPluginComponent
        rw [hg, hi]
      rw [e]
      exact ⟨by simp [componentOf, hi], h⟩
    | some m =>
      cases hs : assocGet m.components slot with
      | none =>
        have e : loadPluginComponent impls cache pid slot = (none, cache) := by
          unfold loadPluginComponent
          rw [hg, hi]
          dsimp only
          rw [hs]
        rw [e]
        exact ⟨by simp [componentOf, hi, hs], h⟩
      | some c =>
        have hc : componentOf impls pid slot = some c := by simp [componentOf, hi, hs]
        have e : loadPluginComponent impls cache pid slot
            = (some c, ccInsert cache pid slot c) := by
          unfold loadPluginComponent
          rw [hg, hi]
          dsimp only
          rw [hs]
        rw [e]
        exact ⟨hc.symm, cacheConsistent_ccInsert h hc⟩

theorem loadComponentsLoop_spec (impls : String → Option PluginModule)
    (ids : List String) (slot : String) :
    ∀ cache : CCache, CacheConsistent impls cache →
      (loadComponentsLoop impls cache ids slot).1
        = ids.filterMap (fun pid => componentOf impls pid slot)
      ∧ CacheConsistent impls (loadComponentsLoop impls cache ids slot).2 := by
  induction ids with
  | nil =>
    intro cache h
    exact ⟨by simp [loadComponentsLoop], by simpa [loadComponentsLoop] using h⟩
  | cons pid rest ih =>
    intro cache h
    have h1 := loadPluginComponent_spec impls cache pid slot h
    have h2 := ih (loadPluginComponent impls cache pid slot).2 h1.2
    constructor
    · show (loadComponentsLoop impls cache (pid :: rest) slot).1 = _
      simp only [loadComponentsLoop, List.filterMap_cons, ← h1.1, h2.1]
      cases (loadPluginComponent impls cache pid slot).1 <;> rfl
    · exact h2.2

theorem loadSlotComponents_fst (reg : List PluginManifest) (db : Db) (ls : LocalStore)
    (impls : String → Option PluginModule) (cache : CCache) (session : Option String)
    (slot : String) (et eid : Option String) (h : CacheConsistent impls cache) :
    (loadSlotComponents reg db ls impls cache session slot et eid).1
      = (activePluginIds reg db ls session slot et eid).filterMap
          (fun pid => componentOf impls pid slot) :=
  (loadComponentsLoop_spec impls (activePluginIds reg db ls session slot et eid)
    slot cache h).1

/-! Ordering and membership facts about the candidate computation. -/

theorem pluginStatusFor_manifest (rows : List PluginInstallation) (m : PluginManifest) :
    (pluginStatusFor rows m).manifest = m := by
  unfold pluginStatusFor
  cases installationLookup rows m.id <;> rfl

theorem map_filter_sublist {α β : Type} (l : List α) (p : α → Bool) (f : α → β) :
    List.Sublist ((l.filter p).map f) (l.map f) :=
  List.Sublist.map f (List.filter_sublist l)

theorem slotCandidateIds_sublist (reg : List PluginManifest) (db : Db)
    (session : Option String) (slot : String) :
    List.Sublist (slotCandidateIds reg db session slot) (reg.map (fun m => m.id)) := by
  unfold slotCandidateIds slotCandidates
  have h1 := map_filter_sublist (GET_plugins reg db session)
    (fun p => p.installed && p.enabled && p.manifest.slots.any (fun s => s.name == slot))
    (fun p => p.manifest.id)
  have h2 : (GET_plugins reg db session).map (fun p => p.manifest.id)
      = reg.map (fun m => m.id) := by
    unfold GET_plugins
    rw [List.map_map]
    simp [Function.comp_def, pluginStatusFor_manifest]
  rw [h2] at h1
  exact h1

theorem activePluginIds_sublist (reg : List PluginManifest) (db : Db) (ls : LocalStore)
    (session : Option String) (slot : String) (et eid : Option String) :
    List.Sublist (activePluginIds reg db ls session slot et eid)
      (slotCandidateIds reg db session slot) := by
  unfold activePluginIds
  cases et with
  | none => cases eid <;> cases session <;> exact List.Sublist.refl _
  | some et1 =>
    cases eid with
    | none => cases session <;> exact List.Sublist.refl _
    | some eid1 =>
      cases session with
      | none => exact List.Sublist.refl _
      | some u =>
        dsimp only
        cases localGet ls et1 eid1 with
        | none => exact List.Sublist.refl _
        | some ov =>
          cases ov with
          | malformed => exact List.Sublist.refl _
          | wellFormed cfg => exact List.filter_sublist _

theorem slotCandidates_anonymous (reg : List PluginManifest) (db : Db) (slot : String) :
    slotCandidates reg db none slot = [] := by
  unfold slotCandidates
  rw [List.filter_eq_nil_iff]
  intro p hp
  unfold GET_plugins userRows at hp
  obtain ⟨m, hm, hpm⟩ := List.mem_map.mp hp
  rw [← hpm]
  simp [pluginStatusFor, installationLookup]

theorem slotCandidateIds_anonymous (reg : List PluginManifest) (db : Db) (slot : String) :
    slotCandidateIds reg db none slot = [] := by
  unfold slotCandidateIds
  rw [slotCandidates_anonymous]
  rfl

theorem not_mem_slotCandidateIds (reg : List PluginManifest) (db : Db)
    (uid pid slot : String)
    (h : ∀ i ∈ db.installations, i.userId = uid → i.pluginId = pid → i.enabled = false) :
    pid ∉ slotCandidateIds reg db (some uid) slot := by
  intro hmem
  unfold slotCandidateIds slotCandidates at hmem
  obtain ⟨p, hp, hpid⟩ := List.mem_map.mp hmem
  have hpf := List.mem_filter.mp hp
  have hp1 : p ∈ reg.map (pluginStatusFor (userRows db (some uid))) := hpf.1
  obtain ⟨m, hm, hpm⟩ := List.mem_map.mp hp1
  have hcond := hpf.2
  rw [← hpm] at hcond hpid
  rw [pluginStatusFor_manifest] at hpid
  cases hl : installationLookup (userRows db (some uid)) m.id with
  | none => simp [pluginStatusFor, hl] at hcond
  | some i =>
    have hl2 : (userRows db (some uid)).reverse.find? (fun j => j.pluginId == m.id)
        = some i := hl
    have hi1 : i ∈ userRows db (some uid) :=
      List.mem_reverse.mp (List.mem_of_find?_eq_some hl2)
    have hi2 := List.find?_some hl2
    have hi3 : i ∈ db.installations ∧ (i.userId == uid) = true := by
      unfold userRows at hi1
      exact List.mem_filter.mp hi1
    have hpid2 : i.pluginId = pid := by
      have : i.pluginId = m.id := by simpa using hi2
      rw [this, hpid]
    have henabled : i.enabled = false :=
      h i hi3.1 (by simpa using hi3.2) hpid2
    simp [pluginStatusFor, hl, henabled] at hcond

theorem not_mem_activePluginIds_of_disabled (reg : List PluginManifest) (db : Db)
    (ls : LocalStore) (uid pid slot : String) (et eid : Option String)
    (h : ∀ i ∈ db.installations, i.userId = uid → i.pluginId = pid → i.enabled = false) :
    pid ∉ activePluginIds reg db ls (some uid) slot et eid := by
  intro hmem
  exact not_mem_slotCandidateIds reg db uid pid slot h
    ((activePluginIds_sublist reg db ls (some uid) slot et eid).subset hmem)

/-! Facts about sequences of registrations, for the registry uniqueness claim. -/

theorem find?_append_of_some {α : Type} (l1 l2 : List α) (p : α → Bool) (a : α)
    (h : l1.find? p = some a) : (l1 ++ l2).find? p = some a := by
  induction l1 with
  | nil => simp [List.find?] at h
  | cons b tl ih =>
    rw [List.cons_append]
    cases hb : p b with
    | true =>
      rw [List.find?_cons_of_pos _ hb] at h
      rw [List.find?_cons_of_pos _ hb]
      exact h
    | false =>
      rw [List.find?_cons_of_neg _ (by simp [hb])] at h
      rw [List.find?_cons_of_neg _ (by simp [hb])]
      exact ih h

theorem find?_append_of_none {α : Type} (l1 l2 : List α) (p : α → Bool)
    (h : l1.find? p = none) : (l1 ++ l2).find? p = l2.find? p := by
  induction l1 with
  | nil => rfl
  | cons b tl ih =>
    rw [List.cons_append]
    cases hb : p b with
    | true => rw [List.find?_cons_of_pos _ hb] at h; exact absurd h (by simp)
    | false =>
      rw [List.find?_cons_of_neg _ (by simp [hb])] at h
      rw [List.find?_cons_of_neg _ (by simp [hb])]
      exact ih h

theorem registerAvailablePlugin_preserves_unique (reg : List PluginManifest)
    (m : PluginManifest)
    (h : ∀ i, (reg.filter (fun p => p.id == i)).length ≤ 1) :
    ∀ i, ((registerAvailablePlugin reg m).filter (fun p => p.id == i)).length ≤ 1 := by
  intro i
  unfold registerAvailablePlugin
  cases hany : reg.any (fun p => p.id == m.id) with
  | true => simpa [hany] using h i
  | false =>
    simp only [hany, Bool.false_eq_true, if_false]
    rw [List.filter_append, List.length_append]
    by_cases hid : m.id = i
    · have h0 : reg.filter (fun p => p.id == i) = [] := by
        rw [List.filter_eq_nil_iff]
        intro p hp
        have := List.any_eq_false.mp hany p hp
        simpa [hid] using this
      rw [h0]
      simp [List.filter, hid]
    · have hb : (m.id == i) = false := by simp [hid]
      have h1 : [m].filter (fun p => p.id == i) = [] := by
        simp [List.filter, hb]
      rw [h1]
      simpa using h i

theorem registerSequence_unique_aux (ms : List PluginManifest) :
    ∀ acc : List PluginManifest,
      (∀ i, (acc.filter (fun p => p.id == i)).length ≤ 1) →
      ∀ i, ((ms.foldl registerAvailablePlugin acc).filter (fun p => p.id == i)).length ≤ 1 := by
  induction ms with
  | nil => intro acc h i; simpa using h i
  | cons m rest ih =>
    intro acc h i
    rw [List.foldl_cons]
    exact ih (registerAvailablePlugin acc m)
      (registerAvailablePlugin_preserves_unique acc m h) i

theorem registerSequence_find_aux (ms : List PluginManifest) :
    ∀ (acc : List PluginManifest) (i : String),
      (ms.foldl registerAvailablePlugin acc).find? (fun p => p.id == i)
        = match acc.find? (fun p => p.id == i) with
          | some p => some p
          | none => ms.find? (fun m2 => m2.id == i) := by
  induction ms with
  | nil =>
    intro acc i
    cases hacc : acc.find? (fun p => p.id == i) with
    | none => rw [List.foldl_nil, hacc]; rfl
    | some p => rw [List.foldl_nil, hacc]
  | cons m rest ih =>
    intro acc i
    rw [List.foldl_cons, ih]
    cases hacc : acc.find? (fun p => p.id == i) with
    | some p =>
      have hreg : (registerAvailablePlugin acc m).find? (fun p2 => p2.id == i) = some p := by
        unfold registerAvailablePlugin
        cases hany : acc.any (fun p2 => p2.id == m.id) with
        | true => simpa [hany] using hacc
        | false =>
          simp only [hany, Bool.false_eq_true, if_false]
          exact find?_append_of_some acc [m] _ p hacc
      rw [hreg]
    | none =>
      by_cases hmi : m.id = i
      · have hany : acc.any (fun p2 => p2.id == m.id) = false := by
          rw [List.any_eq_false]
          intro p2 hp2
          have := List.find?_eq_none.mp hacc p2 hp2
          simpa [hmi] using this
        have hreg : (registerAvailablePlugin acc m).find? (fun p2 => p2.id == i)
            = some m := by
          unfold registerAvailablePlugin
          simp only [hany, Bool.false_eq_true, if_false]
          rw [find?_append_of_none acc [m] _ hacc]
          simp [List.find?, hmi]
        rw [hreg, List.find?_cons_of_pos _ (by simp [hmi])]
      · have hfind : (registerAvailablePlugin acc m).find? (fun p2 => p2.id == i)
            = none := by
          unfold registerAvailablePlugin
          cases hany : acc.any (fun p2 => p2.id == m.id) with
          | true => simpa [hany] using hacc
          | false =>
            simp only [hany, Bool.false_eq_true, if_false]
            rw [find?_append_of_none acc [m] _ hacc]
            have hb : (m.id == i) = false := by simp [hmi]
            simp [List.find?, hb]
        rw [hfind, List.find?_cons_of_neg _ (by simp [hmi])]

/-! The claims. -/

/-- C1: when a well-formed entity override is stored for the viewer's entity, the slot
resolution result is exactly the components of the installed+enabled slot-declaring
candidate plugins that also lie in the override's explicit id set (an intersection,
never a union), and a plugin absent from the override set never survives into the active
set even if installed and enabled. -/
theorem c1_override_intersection (reg : List PluginManifest) (db : Db) (ls : LocalStore)
    (impls : String → Option PluginModule) (cache : CCache) (uid slot et eid : String)
    (ovr : List String) (hcc : CacheConsistent impls cache)
    (hov : localGet ls et eid = some (StoredOverride.wellFormed ovr)) :
    (loadSlotComponents reg db ls impls cache (some uid) slot (some et) (some eid)).1
      = ((slotCandidateIds reg db (some uid) slot).filter
          (fun i => ovr.contains i)).filterMap (fun pid => componentOf impls pid slot)
    ∧ ∀ pid, pid ∉ ovr →
        pid ∉ activePluginIds reg db ls (some uid) slot (some et) (some eid) := by
  have hact : activePluginIds reg db ls (some uid) slot (some et) (some eid)
      = (slotCandidateIds reg db (some uid) slot).filter (fun i => ovr.contains i) := by
    unfold activePluginIds
    dsimp only
    rw [hov]
  constructor
  · rw [loadSlotComponents_fst reg db ls impls cache (some uid) slot (some et) (some eid)
      hcc, hact]
  · intro pid hpid hmem
    rw [hact] at hmem
    have hm2 := (List.mem_filter.mp hmem).2
    have : pid ∈ ovr := by simpa using hm2
    exact hpid this

/-- C1 witness: with plugins company-metrics and timeline installed, enabled and declaring
CompanyProfile.Header, and an override of only company-metrics stored for (company, acme),
resolution returns exactly the intersection and timeline is excluded. -/
theorem c1_witness :
    (loadSlotComponents wReg wDb wLs wImpls [] (some "u1") "CompanyProfile.Header"
        (some "company") (some "acme")).1
      = ((slotCandidateIds wReg wDb (some "u1") "CompanyProfile.Header").filter
          (fun i => (["company-metrics"] : List String).contains i)).filterMap
          (fun pid => componentOf wImpls pid "CompanyProfile.Header")
    ∧ "timeline" ∉ activePluginIds wReg wDb wLs (some "u1") "CompanyProfile.Header"
        (some "company") (some "acme")
    ∧ (loadSlotComponents wReg wDb wLs wImpls [] (some "u1") "CompanyProfile.Header"
        (some "company") (some "acme")).1 = ["company-metrics.Header"] := by
  have h := c1_override_intersection wReg wDb wLs wImpls [] "u1" "CompanyProfile.Header"
    "company" "acme" ["company-metrics"] (cacheConsistent_nil wImpls) (by decide)
  exact ⟨h.1, h.2 "timeline" (by decide), by decide⟩

/-- C2: resolution output depends only on the registry, database, local store and session:
any two consistent client caches give the same ordered component list, and the surviving
id list is a sublist of the registry ids in registration (insertion) order — never
installation order or arbitrary iteration order. -/
theorem c2_deterministic_registration_order (reg : List PluginManifest) (db : Db)
    (ls : LocalStore) (impls : String → Option PluginModule) (cache1 cache2 : CCache)
    (session : Option String) (slot : String) (et eid : Option String)
    (h1 : CacheConsistent impls cache1) (h2 : CacheConsistent impls cache2) :
    (loadSlotComponents reg db ls impls cache1 session slot et eid).1
      = (loadSlotComponents reg db ls impls cache2 session slot et eid).1
    ∧ List.Sublist (activePluginIds reg db ls session slot et eid)
        (reg.map (fun m => m.id)) := by
  constructor
  · rw [loadSlotComponents_fst reg db ls impls cache1 session slot et eid h1,
        loadSlotComponents_fst reg db ls impls cache2 session slot et eid h2]
  · exact List.Sublist.trans (activePluginIds_sublist reg db ls session slot et eid)
      (slotCandidateIds_sublist reg db session slot)

/-- C2 witness: the empty cache and a pre-populated consistent cache resolve to the same
list, and the active ids are a sublist of the registry ids. -/
theorem c2_witness :
    (loadSlotComponents wReg wDb wLs wImpls [] (some "u1") "CompanyProfile.Header"
        (some "company") (some "acme")).1
      = (loadSlotComponents wReg wDb wLs wImpls wCache2 (some "u1")
          "CompanyProfile.Header" (some "company") (some "acme")).1
    ∧ List.Sublist (activePluginIds wReg wDb wLs (some "u1") "CompanyProfile.Header"
        (some "company") (some "acme")) (wReg.map (fun m => m.id)) :=
  c2_deterministic_registration_order wReg wDb wLs wImpls [] wCache2 (some "u1")
    "CompanyProfile.Header" (some "company") (some "acme") (cacheConsistent_nil wImpls)
    (cacheConsistent_ccInsert (cacheConsistent_nil wImpls) (by decide))

/-- C4: an anonymous (unauthenticated) viewer always resolves to the empty component
list, whatever the registry, database, local store and cache contain: the installation
list is empty, so no plugin passes the installed filter. -/
theorem c4_anonymous_viewer_empty (reg : List PluginManifest) (db : Db) (ls : LocalStore)
    (impls : String → Option PluginModule) (cache : CCache) (slot : String)
    (et eid : Option String) :
    (loadSlotComponents reg db ls impls cache none slot et eid).1 = []
    ∧ activePluginIds reg db ls none slot et eid = [] := by
  have hact : activePluginIds reg db ls none slot et eid = [] := by
    unfold activePluginIds
    cases et with
    | none =>
      cases eid <;> (dsimp only; exact slotCandidateIds_anonymous reg db slot)
    | some et1 =>
      cases eid <;> (dsimp only; exact slotCandidateIds_anonymous reg db slot)
  constructor
  · unfold loadSlotComponents
    rw [hact]
    rfl
  · exact hact

/-- C5: if every installation row for (viewer, plugin) is disabled, the plugin never
enters the active set for that viewer, for any slot and entity, and the resolved list is
exactly the loads of the active ids (which exclude it). -/
theorem c5_disabled_plugin_excluded (reg : List PluginManifest) (db : Db)
    (ls : LocalStore) (impls : String → Option PluginModule) (cache : CCache)
    (uid pid slot : String) (et eid : Option String)
    (hcc : CacheConsistent impls cache)
    (h : ∀ i ∈ db.installations, i.userId = uid → i.pluginId = pid → i.enabled = false) :
    pid ∉ activePluginIds reg db ls (some uid) slot et eid
    ∧ (loadSlotComponents reg db ls impls cache (some uid) slot et eid).1
        = (activePluginIds reg db ls (some uid) slot et eid).filterMap
            (fun q => componentOf impls q slot) :=
  ⟨not_mem_activePluginIds_of_disabled reg db ls uid pid slot et eid h,
   loadSlotComponents_fst reg db ls impls cache (some uid) slot et eid hcc⟩

/-- C5 witness: with company-metrics installed but disabled, it is excluded from the
active set even though it declares the slot, and the resolved list evaluates to exactly
the loads of the remaining plugin. -/
theorem c5_witness :
    "company-metrics" ∉ activePluginIds wReg w5Db [] (some "u1")
        "CompanyProfile.Header" (some "company") (some "acme")
    ∧ (loadSlotComponents wReg w5Db [] wImpls [] (some "u1") "CompanyProfile.Header"
        (some "company") (some "acme")).1
      = (activePluginIds wReg w5Db [] (some "u1") "CompanyProfile.Header"
          (some "company") (some "acme")).filterMap
          (fun q => componentOf wImpls q "CompanyProfile.Header") :=
  c5_disabled_plugin_excluded wReg w5Db [] wImpls [] "u1" "company-metrics"
    "CompanyProfile.Header" (some "company") (some "acme")
    (cacheConsistent_nil wImpls) (by decide)

/-- C10: a stored override value that fails to parse behaves exactly like no stored
override: resolution (components and cache alike) equals resolution against an empty
local store, and the active set falls back to the full candidate set — never to the
empty set, and no error is surfaced. -/
theorem c10_malformed_override_is_no_override (reg : List PluginManifest) (db : Db)
    (ls : LocalStore) (impls : String → Option PluginModule) (cache : CCache)
    (session : Option String) (slot et eid : String)
    (hov : localGet ls et eid = some StoredOverride.malformed) :
    loadSlotComponents reg db ls impls cache session slot (some et) (some eid)
      = loadSlotComponents reg db [] impls cache session slot (some et) (some eid)
    ∧ activePluginIds reg db ls session slot (some et) (some eid)
      = slotCandidateIds reg db session slot := by
  have hact : activePluginIds reg db ls session slot (some et) (some eid)
      = slotCandidateIds reg db session slot := by
    unfold activePluginIds
    cases session with
    | none => rfl
    | some u =>
      dsimp only
      rw [hov]
  have hact2 : activePluginIds reg db [] session slot (some et) (some eid)
      = slotCandidateIds reg db session slot := by
    unfold activePluginIds
    cases session with
    | none => rfl
    | some u =>
      dsimp only
      rw [show localGet [] et eid = none from rfl]
  constructor
  · unfold loadSlotComponents
    rw [hact, hact2]
  · exact hact

/-- C10 witness: a malformed stored value for (company, acme) resolves identically to the
empty local store, and the active set is the full candidate set. -/
theorem c10_witness :
    loadSlotComponents wReg wDb w10Ls wImpls [] (some "u1") "CompanyProfile.Header"
        (some "company") (some "acme")
      = loadSlotComponents wReg wDb [] wImpls [] (some "u1") "CompanyProfile.Header"
        (some "company") (some "acme")
    ∧ activePluginIds wReg wDb w10Ls (some "u1") "CompanyProfile.Header"
        (some "company") (some "acme")
      = slotCandidateIds wReg wDb (some "u1") "CompanyProfile.Header" :=
  c10_malformed_override_is_no_override wReg wDb w10Ls wImpls [] (some "u1")
    "CompanyProfile.Header" "company" "acme" (by decide)

/-- C3: for any registration sequence containing an id, the registry holds exactly one
manifest for that id, the one registered first wins, and a registration whose id is
already present is a no-op. -/
theorem c3_registry_first_wins (ms : List PluginManifest) (i : String)
    (h : ms.any (fun m => m.id == i) = true) :
    ((registerSequence ms).filter (fun p => p.id == i)).length = 1
    ∧ (registerSequence ms).find? (fun p => p.id == i)
        = ms.find? (fun m => m.id == i)
    ∧ ∀ (reg : List PluginManifest) (m : PluginManifest),
        reg.any (fun p => p.id == m.id) = true → registerAvailablePlugin reg m = reg := by
  have hfind : (registerSequence ms).find? (fun p => p.id == i)
      = ms.find? (fun m => m.id == i) := by
    unfold registerSequence
    rw [registerSequence_find_aux ms [] i]
    rfl
  have hle := registerSequence_unique_aux ms [] (by intro j; simp) i
  obtain ⟨m, hm, hmi⟩ := List.any_eq_true.mp h
  have hex : (ms.find? (fun m2 => m2.id == i)).isSome := by
    rw [List.find?_isSome]
    exact ⟨m, hm, hmi⟩
  obtain ⟨p, hp⟩ := Option.isSome_iff_exists.mp hex
  have hreg : (registerSequence ms).find? (fun p2 => p2.id == i) = some p :=
    hfind.trans hp
  have hpmem : p ∈ registerSequence ms := List.mem_of_find?_eq_some hreg
  have hppred := List.find?_some hreg
  have hpfilter : p ∈ (registerSequence ms).filter (fun p2 => p2.id == i) :=
    List.mem_filter.mpr ⟨hpmem, hppred⟩
  have hpos : 0 < ((registerSequence ms).filter (fun p2 => p2.id == i)).length :=
    List.length_pos_of_mem hpfilter
  refine ⟨Nat.le_antisymm hle hpos, hfind, ?_⟩
  intro reg m2 hany
  simp [registerAvailablePlugin, hany]

/-- C3 witness: registering company-metrics, a colliding duplicate, then timeline leaves
exactly one company-metrics manifest (the first), and re-registering the duplicate is a
no-op. -/
theorem c3_witness :
    ((registerSequence wMs).filter (fun p => p.id == "company-metrics")).length = 1
    ∧ (registerSequence wMs).find? (fun p => p.id == "company-metrics")
        = wMs.find? (fun m => m.id == "company-metrics")
    ∧ registerAvailablePlugin (registerSequence wMs) wManDup = registerSequence wMs := by
  have h := c3_registry_first_wins wMs "company-metrics" (by decide)
  exact ⟨h.1, h.2.1, h.2.2 (registerSequence wMs) wManDup (by decide)⟩

/-- C6: for an unloaded plugin id, loadPluginModule returns null (without throwing) when
the id is outside the closed switch, and also returns null with the loader state fully
unchanged when the module's initialize() throws, so the module is never cached or left
partially initialized and a later load re-runs resolution and initialization. -/
theorem c6_loader_not_found_unloaded (resolveImpl : String → Option PluginModule)
    (st : LoaderState) (pid : String)
    (h : assocGet st.loadedModules pid = none) :
    (resolveImpl pid = none → loadPluginModule resolveImpl st pid = (none, st))
    ∧ ∀ m, resolveImpl pid = some m → m.initHook = some false →
        loadPluginModule resolveImpl st pid = (none, st)
        ∧ isPluginLoaded (loadPluginModule resolveImpl st pid).2 pid = false := by
  constructor
  · intro h2
    unfold loadPluginModule
    rw [h, h2]
  · intro m h2 h3
    have e : loadPluginModule resolveImpl st pid = (none, st) := by
      unfold loadPluginModule
      rw [h, h2]
      dsimp only
      rw [h3]
    refine ⟨e, ?_⟩
    rw [e]
    unfold isPluginLoaded
    rw [h]
    rfl

/-- C6 witness: an id outside the switch loads to null with the empty loader unchanged,
and an id whose module's initialize() throws also loads to null, staying unloaded. -/
theorem c6_witness :
    loadPluginModule wResolve emptyLoader "unknown-plugin" = (none, emptyLoader)
    ∧ loadPluginModule wResolve emptyLoader "bad-plugin" = (none, emptyLoader)
    ∧ isPluginLoaded (loadPluginModule wResolve emptyLoader "bad-plugin").2
        "bad-plugin" = false := by
  have h1 := c6_loader_not_found_unloaded wResolve emptyLoader "unknown-plugin" rfl
  have h2 := c6_loader_not_found_unloaded wResolve emptyLoader "bad-plugin" rfl
  have h3 := h2.2 wFailModule (by decide) rfl
  exact ⟨h1.1 (by decide), h3.1, h3.2⟩

/-- C7 counterexample: uninstalling company-metrics succeeds and clears the server-side
rows, yet a stored client-local entity override set still references the uninstalled
plugin id — the claim that no stored entity override set references it any more is false
on the code, because nothing in the uninstall path touches the client-local storage. -/
theorem c7_counterexample :
    (uninstallSystem c7Sys (some "u1") (some "company-metrics")).1 = ApiResult.ok ()
    ∧ (uninstallSystem c7Sys (some "u1") (some "company-metrics")).2.db.installations = []
    ∧ (uninstallSystem c7Sys (some "u1") (some "company-metrics")).2.db.entityConfigs = []
    ∧ overrideReferences
        (uninstallSystem c7Sys (some "u1") (some "company-metrics")).2.localStore
        "company-metrics" = true := by
  refine ⟨?_, ?_, ?_, ?_⟩ <;> decide

/-- C7 amended: after a successful uninstall, the installation row and every server-side
entityPluginConfig row for (viewer, plugin) are deleted, the client-local override
storage is left untouched (it may still reference the plugin id), and slot resolution for
that viewer never yields the plugin in any active set, because the plugin no longer
passes the installed filter. -/
theorem c7_amended_uninstall (st : SysState) (uid pid : String) (st2 : SysState)
    (h : uninstallSystem st (some uid) (some pid) = (ApiResult.ok (), st2)) :
    (∀ i ∈ st2.db.installations, ¬(i.userId = uid ∧ i.pluginId = pid))
    ∧ (∀ c ∈ st2.db.entityConfigs, ¬(c.userId = uid ∧ c.pluginId = pid))
    ∧ st2.localStore = st.localStore
    ∧ ∀ (reg : List PluginManifest) (slot : String) (et eid : Option String),
        pid ∉ activePluginIds reg st2.db st2.localStore (some uid) slot et eid := by
  have hfst : (DELETE_plugins st.db (some uid) (some pid)).1 = ApiResult.ok () :=
    congrArg Prod.fst h
  have hsnd : (⟨(DELETE_plugins st.db (some uid) (some pid)).2, st.localStore⟩ : SysState)
      = st2 := congrArg Prod.snd h
  cases hany : st.db.installations.any (fun i => i.userId == uid && i.pluginId == pid) with
  | false =>
    have hbad : (DELETE_plugins st.db (some uid) (some pid)).1 = ApiResult.serverError := by
      unfold DELETE_plugins
      dsimp only
      rw [hany]
      rfl
    rw [hbad] at hfst
    exact absurd hfst (by simp)
  | true =>
    have hdb : (DELETE_plugins st.db (some uid) (some pid)).2
        = ⟨st.db.installations.filter (fun i => !(i.userId == uid && i.pluginId == pid)),
           st.db.entityConfigs.filter (fun c => !(c.userId == uid && c.pluginId == pid))⟩ := by
      unfold DELETE_plugins
      dsimp only
      rw [hany]
      rfl
    rw [hdb] at hsnd
    have hdb2 : st2.db
        = ⟨st.db.installations.filter (fun i => !(i.userId == uid && i.pluginId == pid)),
           st.db.entityConfigs.filter (fun c => !(c.userId == uid && c.pluginId == pid))⟩ := by
      rw [← hsnd]
    have hls : st2.localStore = st.localStore := by rw [← hsnd]
    have hinst : ∀ i ∈ st2.db.installations, ¬(i.userId = uid ∧ i.pluginId = pid) := by
      intro i hi hcon
      rw [hdb2] at hi
      have hb : (i.userId == uid && i.pluginId == pid) = true := by
        rw [hcon.1, hcon.2]
        simp
      have hmem2 := (List.mem_filter.mp hi).2
      simp only [] at hmem2
      rw [hb] at hmem2
      simp at hmem2
    have hconf : ∀ c ∈ st2.db.entityConfigs, ¬(c.userId = uid ∧ c.pluginId = pid) := by
      intro c hc hcon
      rw [hdb2] at hc
      have hb : (c.userId == uid && c.pluginId == pid) = true := by
        rw [hcon.1, hcon.2]
        simp
      have hmem2 := (List.mem_filter.mp hc).2
      simp only [] at hmem2
      rw [hb] at hmem2
      simp at hmem2
    refine ⟨hinst, hconf, hls, ?_⟩
    intro reg slot et eid
    apply not_mem_activePluginIds_of_disabled
    intro i hi hu hp
    exact absurd ⟨hu, hp⟩ (hinst i hi)

/-- C7 amended witness: on the concrete combined state, uninstalling company-metrics
leaves the client-local storage untouched and excludes company-metrics from the active
set for (company, acme). -/
theorem c7_amended_witness :
    (uninstallSystem c7Sys (some "u1") (some "company-metrics")).2.localStore
        = c7Sys.localStore
    ∧ "company-metrics" ∉ activePluginIds wReg
        (uninstallSystem c7Sys (some "u1") (some "company-metrics")).2.db
        (uninstallSystem c7Sys (some "u1") (some "company-metrics")).2.localStore
        (some "u1") "CompanyProfile.Header" (some "company") (some "acme") := by
  have h := c7_amended_uninstall c7Sys "u1" "company-metrics"
    (uninstallSystem c7Sys (some "u1") (some "company-metrics")).2 (by decide)
  exact ⟨h.2.2.1, h.2.2.2 wReg "CompanyProfile.Header" (some "company") (some "acme")⟩

/-- C8: for an authenticated viewer and a pluginId absent from the registry, install
returns NotFound and leaves the whole database unchanged — the registry lookup precedes
and guards the upsert. -/
theorem c8_install_unknown_not_found (reg : List PluginManifest) (db : Db)
    (uid pid : String) (h : getPluginManifest reg pid = none) :
    POST_plugins reg db (some uid) (some pid) = (ApiResult.notFound, db) := by
  unfold POST_plugins
  dsimp only
  rw [h]

/-- C8 witness: installing a ghost plugin against the concrete registry returns NotFound
with the database unchanged. -/
theorem c8_witness :
    POST_plugins wReg wDb (some "u1") (some "ghost-plugin")
      = (ApiResult.notFound, wDb) :=
  c8_install_unknown_not_found wReg wDb "u1" "ghost-plugin" (by decide)

/-- C9: re-installing an already-installed registered plugin updates the existing row in
place to enabled := true, preserving its identity and stored settings and adding no new
row, and returns the re-enabled row. -/
theorem c9_reinstall_preserves_settings (reg : List PluginManifest) (db : Db)
    (uid pid : String) (m : PluginManifest) (i : PluginInstallation)
    (h1 : getPluginManifest reg pid = some m)
    (h2 : db.installations.find? (fun j => j.userId == uid && j.pluginId == pid)
        = some i) :
    (POST_plugins reg db (some uid) (some pid)).2
      = ⟨db.installations.map (fun j =>
          if j.userId == uid && j.pluginId == pid then setEnabledTrue j else j),
         db.entityConfigs⟩
    ∧ (POST_plugins reg db (some uid) (some pid)).1
        = ApiResult.ok (setEnabledTrue i) := by
  have e2 : upsertInstallation db uid pid
      = (setEnabledTrue i,
         ⟨db.installations.map (fun j =>
            if j.userId == uid && j.pluginId == pid then setEnabledTrue j else j),
          db.entityConfigs⟩) := by
    unfold upsertInstallation
    rw [h2]
  have e : POST_plugins reg db (some uid) (some pid)
      = (ApiResult.ok (upsertInstallation db uid pid).1,
         (upsertInstallation db uid pid).2) := by
    unfold POST_plugins
    dsimp only
    rw [h1]
  rw [e, e2]
  exact ⟨rfl, rfl⟩

/-- C9 witness: re-installing company-metrics over an existing disabled row with stored
settings re-enables the row and keeps the settings byte-for-byte. -/
theorem c9_witness :
    (POST_plugins wReg w9Db (some "u1") (some "company-metrics")).2
      = ⟨w9Db.installations.map (fun j =>
          if j.userId == "u1" && j.pluginId == "company-metrics" then setEnabledTrue j
          else j),
         w9Db.entityConfigs⟩
    ∧ (POST_plugins wReg w9Db (some "u1") (some "company-metrics")).2.installations
      = [⟨"u1", "company-metrics", true, [("color", "blue")]⟩] := by
  have h := c9_reinstall_preserves_settings wReg w9Db "u1" "company-metrics" wManA
    ⟨"u1", "company-metrics", false, [("color", "blue")]⟩ (by decide) (by decide)
  exact ⟨h.1, by decide⟩

end Metitor
